import Mathlib

/-!
Verification development for the Token Acres farm-simulation core.

The definitions below are a shallow embedding of the TypeScript sources:
`src/extension/item-registry.ts`, `src/extension/inventory.ts`,
`src/extension/efficiency-scorer.ts`, `src/extension/farm-engine.ts` and the
shared type declarations (`types.ts`).  JavaScript numbers that only ever hold
integers (stack quantities, slot counts, soil health, crop stages, seed
balances, timestamps) are embedded as `Int`; numbers that flow through real
division (durations, densities, harvest multipliers) are embedded as `ℚ`.
In-place array mutation is embedded as explicit state passing: an operation
that mutates an inventory returns the updated list alongside its result.
`Math.random()` outcomes are passed in as explicit boolean oracles.
Purely presentational string fields (item names, descriptions, icons) that no
embedded operation reads are omitted from the records.
-/

/-- Letter grade for a completed task (`types.ts`, `Grade`). -/
inductive Grade where
  | S
  | A
  | B
  | C
deriving DecidableEq

/-- Season of the in-game calendar (`types.ts`, `Season`). -/
inductive Season where
  | spring
  | summer
  | fall
  | winter
deriving DecidableEq, BEq

/-- The twelve plantable crop species (`types.ts`, `CropType`). -/
inductive CropType where
  | turnip
  | potato
  | strawberry
  | clover
  | tomato
  | corn
  | melon
  | starfruit
  | pumpkin
  | grape
  | yam
  | sunflower
deriving DecidableEq

/-- Static item data (`item-registry.ts`, `ItemDefinition`).  The `name`,
`description` and `icon` fields of the source are presentational strings never
read by any embedded operation and are omitted. -/
structure ItemDefinition where
  id : String
  category : String
  maxStack : Int
  sellValue : Option Int
deriving DecidableEq

/-- One inventory stack (`types.ts` / `item-registry.ts`, `ItemStack`). -/
structure ItemStack where
  itemId : String
  quantity : Int
  maxStack : Int
deriving DecidableEq

/-- Result record returned by every inventory operation
(`inventory.ts`, `InventoryOperationResult`). -/
structure InventoryOperationResult where
  success : Bool
  processed : Int
  overflow : Int
deriving DecidableEq

/-- The full item registry (`item-registry.ts`, `ITEM_REGISTRY`), as an
association list in source order. -/
def ITEM_REGISTRY : List (String × ItemDefinition) :=
  [ ("turnip_seed", { id := "turnip_seed", category := "seed", maxStack := 64, sellValue := some 2 }),
    ("potato_seed", { id := "potato_seed", category := "seed", maxStack := 64, sellValue := some 3 }),
    ("strawberry_seed", { id := "strawberry_seed", category := "seed", maxStack := 64, sellValue := some 5 }),
    ("tomato_seed", { id := "tomato_seed", category := "seed", maxStack := 64, sellValue := some 4 }),
    ("corn_seed", { id := "corn_seed", category := "seed", maxStack := 64, sellValue := some 5 }),
    ("carrot_seed", { id := "carrot_seed", category := "seed", maxStack := 64, sellValue := some 2 }),
    ("parsnip_seed", { id := "parsnip_seed", category := "seed", maxStack := 64, sellValue := some 3 }),
    ("pepper_seed", { id := "pepper_seed", category := "seed", maxStack := 64, sellValue := some 5 }),
    ("pumpkin_seed", { id := "pumpkin_seed", category := "seed", maxStack := 64, sellValue := some 10 }),
    ("sunflower_seed", { id := "sunflower_seed", category := "seed", maxStack := 64, sellValue := some 4 }),
    ("appletree_seed", { id := "appletree_seed", category := "seed", maxStack := 16, sellValue := some 15 }),
    ("lemontree_seed", { id := "lemontree_seed", category := "seed", maxStack := 16, sellValue := some 12 }),
    ("turnip", { id := "turnip", category := "crop", maxStack := 64, sellValue := some 5 }),
    ("potato", { id := "potato", category := "crop", maxStack := 64, sellValue := some 8 }),
    ("strawberry", { id := "strawberry", category := "crop", maxStack := 64, sellValue := some 15 }),
    ("tomato", { id := "tomato", category := "crop", maxStack := 64, sellValue := some 12 }),
    ("corn", { id := "corn", category := "crop", maxStack := 64, sellValue := some 14 }),
    ("melon", { id := "melon", category := "crop", maxStack := 32, sellValue := some 20 }),
    ("pumpkin", { id := "pumpkin", category := "crop", maxStack := 16, sellValue := some 30 }),
    ("starfruit", { id := "starfruit", category := "crop", maxStack := 32, sellValue := some 50 }),
    ("grape", { id := "grape", category := "crop", maxStack := 64, sellValue := some 18 }),
    ("yam", { id := "yam", category := "crop", maxStack := 64, sellValue := some 10 }),
    ("sunflower", { id := "sunflower", category := "crop", maxStack := 64, sellValue := some 12 }),
    ("carrot", { id := "carrot", category := "crop", maxStack := 64, sellValue := some 6 }),
    ("parsnip", { id := "parsnip", category := "crop", maxStack := 64, sellValue := some 7 }),
    ("pepper", { id := "pepper", category := "crop", maxStack := 64, sellValue := some 14 }),
    ("apple", { id := "apple", category := "crop", maxStack := 64, sellValue := some 40 }),
    ("lemon", { id := "lemon", category := "crop", maxStack := 64, sellValue := some 35 }),
    ("golden_turnip", { id := "golden_turnip", category := "crop", maxStack := 64, sellValue := some 15 }),
    ("golden_potato", { id := "golden_potato", category := "crop", maxStack := 64, sellValue := some 24 }),
    ("golden_strawberry", { id := "golden_strawberry", category := "crop", maxStack := 64, sellValue := some 45 }),
    ("golden_tomato", { id := "golden_tomato", category := "crop", maxStack := 64, sellValue := some 36 }),
    ("golden_corn", { id := "golden_corn", category := "crop", maxStack := 64, sellValue := some 42 }),
    ("golden_carrot", { id := "golden_carrot", category := "crop", maxStack := 64, sellValue := some 18 }),
    ("golden_parsnip", { id := "golden_parsnip", category := "crop", maxStack := 64, sellValue := some 21 }),
    ("golden_pepper", { id := "golden_pepper", category := "crop", maxStack := 64, sellValue := some 42 }),
    ("golden_apple", { id := "golden_apple", category := "crop", maxStack := 64, sellValue := some 120 }),
    ("golden_lemon", { id := "golden_lemon", category := "crop", maxStack := 64, sellValue := some 105 }),
    ("clover", { id := "clover", category := "material", maxStack := 64, sellValue := none }) ]

/-- Registry lookup (`item-registry.ts`, `getItem`). -/
def getItem (itemId : String) : Option ItemDefinition :=
  ITEM_REGISTRY.lookup itemId

/-- The canonical string id of a crop species, as used for registry and
harvest-item keys. -/
def cropTypeId : CropType → String
  | .turnip => "turnip"
  | .potato => "potato"
  | .strawberry => "strawberry"
  | .clover => "clover"
  | .tomato => "tomato"
  | .corn => "corn"
  | .melon => "melon"
  | .starfruit => "starfruit"
  | .pumpkin => "pumpkin"
  | .grape => "grape"
  | .yam => "yam"
  | .sunflower => "sunflower"

/-- Crop species to harvested item id (`item-registry.ts`,
`cropToHarvestItem`).  The source's golden table also lists carrot, parsnip,
pepper and the two tree species, none of which occur in `CropType`, and its
regular table only remaps the tree species; over the `CropType` domain both
tables therefore reduce to the cases below, with fallback to the crop id. -/
def cropToHarvestItem (cropType : CropType) (isGolden : Bool) : String :=
  if isGolden then
    match cropType with
    | .turnip => "golden_turnip"
    | .potato => "golden_potato"
    | .strawberry => "golden_strawberry"
    | .tomato => "golden_tomato"
    | .corn => "golden_corn"
    | _ => cropTypeId cropType
  else
    cropTypeId cropType

namespace InventoryManager

/-- Ceiling of the exact (floating-point in the source) division
`remaining / maxStack` used by `hasSpace` (`Math.ceil`), expressed as integer
arithmetic: for a positive divisor (every registry `maxStack` is positive),
`Math.ceil(a / b) = (a + b - 1) / b` with `/` the floor-rounding integer
division. -/
def cdiv (a b : Int) : Int := (a + b - 1) / b

/-- Slot-availability check `inventory.length < maxSlots`; `none` embeds the
JavaScript `Infinity` bound used by `transfer`'s rollback. -/
def slotOk (maxSlots : Option Int) (len : Int) : Bool :=
  match maxSlots with
  | none => true
  | some m => decide (len < m)

/-- First loop of `InventoryManager.addItem`: top up existing under-capacity
stacks of the item, in list order.  Returns the updated inventory and the
remaining quantity.  (The source's early return once `remaining` hits 0 is
equivalent to continuing, since every further `canAdd` is then 0.) -/
def fillExisting (itemId : String) : List ItemStack → Int → List ItemStack × Int
  | [], remaining => ([], remaining)
  | s :: rest, remaining =>
    if s.itemId = itemId ∧ s.quantity < s.maxStack then
      let canAdd := min remaining (s.maxStack - s.quantity)
      let r := fillExisting itemId rest (remaining - canAdd)
      ({ s with quantity := s.quantity + canAdd } :: r.1, r.2)
    else
      let r := fillExisting itemId rest remaining
      (s :: r.1, r.2)

/-- Second loop of `InventoryManager.addItem`: create new stacks while items
remain and a slot is free.  `len` is the current inventory length.  The fuel
argument makes the recursion structural; since every registry `maxStack` is
positive, fuel `remaining.toNat` is enough to reproduce the source loop
exactly (with a non-positive `maxStack` the source loop would not terminate,
which is unreachable through the registry). -/
def newStacks (itemId : String) (maxStack : Int) (maxSlots : Option Int) :
    Nat → Int → Int → List ItemStack × Int
  | 0, _, remaining => ([], remaining)
  | fuel + 1, len, remaining =>
    if 0 < remaining ∧ slotOk maxSlots len then
      let stackSize := min remaining maxStack
      let r := newStacks itemId maxStack maxSlots fuel (len + 1) (remaining - stackSize)
      ({ itemId := itemId, quantity := stackSize, maxStack := maxStack } :: r.1, r.2)
    else
      ([], remaining)

/-- Add items to an inventory, stacking where possible
(`inventory.ts`, `InventoryManager.addItem`). -/
def addItem (inventory : List ItemStack) (itemId : String) (quantity : Int)
    (maxSlots : Option Int) : InventoryOperationResult × List ItemStack :=
  if quantity ≤ 0 then
    ({ success := true, processed := 0, overflow := 0 }, inventory)
  else
    match getItem itemId with
    | none => ({ success := false, processed := 0, overflow := quantity }, inventory)
    | some definition =>
      let fill := fillExisting itemId inventory quantity
      let news := newStacks itemId definition.maxStack maxSlots fill.2.toNat
        (fill.1.length : Int) fill.2
      ({ success := news.2 = 0, processed := quantity - news.2, overflow := news.2 },
        fill.1 ++ news.1)

/-- One iteration of the `InventoryManager.removeItem` loop, applied to stack
`s` after the stacks behind it (higher indices, iterated first by the
backwards loop) have produced the state `r` = (kept stacks, remaining to
remove).  `r.2 = 0` marks the source's early return having fired, leaving `s`
untouched; otherwise a matching stack gives up `min(remaining, quantity)`
items and is spliced out if it reaches quantity 0. -/
def removeStep (itemId : String) (s : ItemStack) (r : List ItemStack × Int) :
    List ItemStack × Int :=
  if r.2 = 0 then
    (s :: r.1, r.2)
  else if s.itemId = itemId then
    let canRemove := min r.2 s.quantity
    let newQuantity := s.quantity - canRemove
    if newQuantity = 0 then
      (r.1, r.2 - canRemove)
    else
      ({ s with quantity := newQuantity } :: r.1, r.2 - canRemove)
  else
    (s :: r.1, r.2)

/-- Loop of `InventoryManager.removeItem`: consume matching stacks in reverse
list order (the source iterates backwards and splices), deleting stacks that
reach quantity 0, stopping once the requested quantity has been removed.
Processing the tail (the later indices) first embeds the backwards
iteration. -/
def removeLoop (itemId : String) : List ItemStack → Int → List ItemStack × Int
  | [], remaining => ([], remaining)
  | s :: rest, remaining => removeStep itemId s (removeLoop itemId rest remaining)

/-- Remove items from an inventory (`inventory.ts`,
`InventoryManager.removeItem`). -/
def removeItem (inventory : List ItemStack) (itemId : String) (quantity : Int) :
    InventoryOperationResult × List ItemStack :=
  if quantity ≤ 0 then
    ({ success := true, processed := 0, overflow := 0 }, inventory)
  else
    let r := removeLoop itemId inventory quantity
    ({ success := r.2 = 0, processed := quantity - r.2, overflow := r.2 }, r.1)

/-- Total quantity of an item in an inventory (`inventory.ts`,
`InventoryManager.getCount`): filter matching stacks, then sum. -/
def getCount (inventory : List ItemStack) (itemId : String) : Int :=
  (inventory.filter (fun s => s.itemId == itemId)).foldl
    (fun total s => total + s.quantity) 0

/-- Loop of `InventoryManager.hasSpace`: free room left after filling existing
under-capacity stacks (same arithmetic as `fillExisting`, without mutation). -/
def spaceRemaining (itemId : String) : List ItemStack → Int → Int
  | [], remaining => remaining
  | s :: rest, remaining =>
    if s.itemId = itemId ∧ s.quantity < s.maxStack then
      spaceRemaining itemId rest (remaining - min remaining (s.maxStack - s.quantity))
    else
      spaceRemaining itemId rest remaining

/-- Check whether an inventory has space for a quantity of an item
(`inventory.ts`, `InventoryManager.hasSpace`). -/
def hasSpace (inventory : List ItemStack) (itemId : String) (quantity : Int)
    (maxSlots : Int) : Bool :=
  if quantity ≤ 0 then true
  else
    match getItem itemId with
    | none => false
    | some definition =>
      let remaining := spaceRemaining itemId inventory quantity
      if remaining ≤ 0 then true
      else decide (cdiv remaining definition.maxStack ≤ maxSlots - (inventory.length : Int))

/-- Transfer items between inventories (`inventory.ts`,
`InventoryManager.transfer`).  Returns the result together with the updated
source and destination inventories.  The rollback path re-adds the removed
quantity to the source with an `Infinity` slot bound (`none`). -/
def transfer (fromInventory toInventory : List ItemStack) (itemId : String)
    (quantity : Int) (toMaxSlots : Int) :
    InventoryOperationResult × List ItemStack × List ItemStack :=
  let available := getCount fromInventory itemId
  let actualQuantity := min quantity available
  if actualQuantity = 0 then
    ({ success := false, processed := 0, overflow := quantity }, fromInventory, toInventory)
  else if hasSpace toInventory itemId actualQuantity toMaxSlots = false then
    ({ success := false, processed := 0, overflow := quantity }, fromInventory, toInventory)
  else
    let removeResult := removeItem fromInventory itemId actualQuantity
    if removeResult.1.success = false then
      ({ success := false, processed := 0, overflow := quantity }, removeResult.2, toInventory)
    else
      let addResult := addItem toInventory itemId actualQuantity (some toMaxSlots)
      if addResult.1.success = false then
        let rollback := addItem removeResult.2 itemId removeResult.1.processed none
        ({ success := false, processed := 0, overflow := quantity }, rollback.2, addResult.2)
      else
        ({ success := true, processed := addResult.1.processed,
           overflow := quantity - actualQuantity }, removeResult.2, addResult.2)

end InventoryManager

/-- The stack invariant of the data model: every stack holds a quantity in
`(0, maxStack]` — in particular no empty placeholder stacks. -/
def InvariantOK (inventory : List ItemStack) : Prop :=
  ∀ s ∈ inventory, 0 < s.quantity ∧ s.quantity ≤ s.maxStack

instance (inventory : List ItemStack) : Decidable (InvariantOK inventory) := by
  unfold InvariantOK
  infer_instance

/-- One task-history entry (`types.ts`, `TaskRecord`).  The optional
`agentId`, `linesChanged` and `filesChanged` fields are never read by any
embedded operation and are omitted. -/
structure TaskRecord where
  timestamp : Int
  duration : ℚ
  outputLength : Option ℚ
  grade : Grade
  actionsEarned : Int
deriving DecidableEq

/-- A normalized completed-task result (`types.ts`, `TaskResult`).  The
`exitCode` and `complexity` fields are never read by the scorer and are
omitted; the optional `manual` flag is embedded as a `Bool` (absent is
falsy). -/
structure TaskResult where
  duration : ℚ
  outputLength : ℚ
  success : Bool
  manual : Bool
deriving DecidableEq

/-- Numeric value of a grade on the scorer's 1–4 scale, with the ordering
C < B < A < S. -/
def gradeValue : Grade → Nat
  | .S => 4
  | .A => 3
  | .B => 2
  | .C => 1

namespace EfficiencyScorer

/-- JavaScript `x || 100` for a number `x`: 0 is falsy. -/
def orElse100 (x : ℚ) : ℚ := if x = 0 then 100 else x

/-- JavaScript `x || 100` for a possibly-undefined number. -/
def optOrElse100 : Option ℚ → ℚ
  | none => 100
  | some x => orElse100 x

/-- Output density of the result being scored
(`efficiency-scorer.ts`, `score` lines 29–30):
`(result.outputLength || 100) / Math.max(result.duration / 1000, 1)`. -/
def newDensity (result : TaskResult) : ℚ :=
  orElse100 result.outputLength / max (result.duration / 1000) 1

/-- Density of one historical record (`efficiency-scorer.ts`, `score`
line 35): `(h.outputLength || 100) / (h.duration / 1000)` — note there is no
`Math.max(·, 1)` clamp on the historical side. -/
def histDensity (h : TaskRecord) : ℚ :=
  optOrElse100 h.outputLength / (h.duration / 1000)

/-- Historical densities: records with positive duration, mapped through
`histDensity` and sorted ascending (`score` lines 33–37). -/
def historicalDensities (history : List TaskRecord) : List ℚ :=
  (((history.filter (fun h => 0 < h.duration)).map histDensity)).mergeSort
    (fun a b => a ≤ b)

/-- Percentile of a value against a sorted array
(`efficiency-scorer.ts`, `getPercentile`): the fraction of entries strictly
below the value, times 100, with 50 for an empty array. -/
def getPercentile (value : ℚ) (sortedArray : List ℚ) : ℚ :=
  if sortedArray = [] then 50
  else ((sortedArray.countP (fun v => decide (v < value)) : ℚ) /
    (sortedArray.length : ℚ)) * 100

/-- Fixed percentile-to-grade thresholds (`score` lines 41–44). -/
def gradeOfPercentile (percentile : ℚ) : Grade :=
  if 90 ≤ percentile then .S
  else if 60 ≤ percentile then .A
  else if 30 ≤ percentile then .B
  else .C

/-- Score a completed task against a task history
(`efficiency-scorer.ts`, `EfficiencyScorer.score`). -/
def score (history : List TaskRecord) (result : TaskResult) : Grade :=
  if result.manual then .B
  else if history.length < 10 then .B
  else
    gradeOfPercentile (getPercentile (newDensity result) (historicalDensities history))

/-- Append a record to the scorer's history with the 50-entry rolling window
(`efficiency-scorer.ts`, `EfficiencyScorer.addRecord`): push, then shift the
oldest entry if the length exceeds 50. -/
def addRecord (history : List TaskRecord) (record : TaskRecord) : List TaskRecord :=
  let h := history ++ [record]
  if 50 < h.length then h.drop 1 else h

end EfficiencyScorer

/-- Crop plot surface type (`types.ts`, `PlotState.type`). -/
inductive PlotType where
  | empty
  | tilled
  | planted
  | path
  | building
  | water
deriving DecidableEq

/-- A planted crop (`types.ts`, `CropState`). -/
structure CropState where
  type : CropType
  stage : Int
  maxStages : Int
  quality : Grade
  isGolden : Bool
  tasksUntilNextStage : Int
deriving DecidableEq

/-- One farm grid cell (`types.ts`, `PlotState`). -/
structure PlotState where
  x : Int
  y : Int
  type : PlotType
  crop : Option CropState
  soilHealth : Int
deriving DecidableEq

/-- Per-species crop configuration (`types.ts`, `CropConfig`). -/
structure CropConfig where
  seasons : List Season
  stages : Int
  tasksPerStage : Int
  baseSellValue : Int
  regrows : Option Int
  coverCrop : Bool
  plotSize : Option Int
  minSoilHealth : Option Int
  requiresTrellis : Bool
  attractsBees : Bool
deriving DecidableEq

/-- The static crop table (`types.ts`, `CROP_DATA`). -/
def CROP_DATA : CropType → CropConfig
  | .turnip =>
    { seasons := [.spring, .fall], stages := 4, tasksPerStage := 1, baseSellValue := 5,
      regrows := none, coverCrop := false, plotSize := none, minSoilHealth := none,
      requiresTrellis := false, attractsBees := false }
  | .potato =>
    { seasons := [.spring], stages := 4, tasksPerStage := 1, baseSellValue := 8,
      regrows := none, coverCrop := false, plotSize := none, minSoilHealth := none,
      requiresTrellis := false, attractsBees := false }
  | .strawberry =>
    { seasons := [.spring], stages := 5, tasksPerStage := 1, baseSellValue := 15,
      regrows := some 1, coverCrop := false, plotSize := none, minSoilHealth := none,
      requiresTrellis := false, attractsBees := false }
  | .clover =>
    { seasons := [.spring, .fall], stages := 3, tasksPerStage := 1, baseSellValue := 2,
      regrows := none, coverCrop := true, plotSize := none, minSoilHealth := none,
      requiresTrellis := false, attractsBees := false }
  | .tomato =>
    { seasons := [.summer], stages := 5, tasksPerStage := 1, baseSellValue := 12,
      regrows := some 1, coverCrop := false, plotSize := none, minSoilHealth := none,
      requiresTrellis := false, attractsBees := false }
  | .corn =>
    { seasons := [.summer], stages := 5, tasksPerStage := 1, baseSellValue := 14,
      regrows := none, coverCrop := false, plotSize := none, minSoilHealth := none,
      requiresTrellis := false, attractsBees := false }
  | .melon =>
    { seasons := [.summer], stages := 4, tasksPerStage := 2, baseSellValue := 20,
      regrows := none, coverCrop := false, plotSize := some 2, minSoilHealth := none,
      requiresTrellis := false, attractsBees := false }
  | .starfruit =>
    { seasons := [.summer], stages := 6, tasksPerStage := 2, baseSellValue := 50,
      regrows := none, coverCrop := false, plotSize := none, minSoilHealth := some 70,
      requiresTrellis := false, attractsBees := false }
  | .pumpkin =>
    { seasons := [.fall], stages := 5, tasksPerStage := 2, baseSellValue := 30,
      regrows := none, coverCrop := false, plotSize := some 3, minSoilHealth := none,
      requiresTrellis := false, attractsBees := false }
  | .grape =>
    { seasons := [.fall], stages := 5, tasksPerStage := 2, baseSellValue := 18,
      regrows := none, coverCrop := false, plotSize := none, minSoilHealth := none,
      requiresTrellis := true, attractsBees := false }
  | .yam =>
    { seasons := [.fall], stages := 4, tasksPerStage := 1, baseSellValue := 10,
      regrows := none, coverCrop := false, plotSize := none, minSoilHealth := none,
      requiresTrellis := false, attractsBees := false }
  | .sunflower =>
    { seasons := [.fall], stages := 5, tasksPerStage := 1, baseSellValue := 12,
      regrows := none, coverCrop := false, plotSize := none, minSoilHealth := none,
      requiresTrellis := false, attractsBees := true }

/-- Whether a crop species may grow in a season (`farm-engine.ts`,
`FarmEngine.isInSeason`): membership in the species' season list. -/
def isInSeason (cropType : CropType) (season : Season) : Bool :=
  (CROP_DATA cropType).seasons.contains season

namespace FarmEngine

/-- The engine's inline history append in `completeTask` (`farm-engine.ts`
lines 103–106): push the record, then shift the oldest entry when the length
exceeds 50. -/
def recordTaskHistory (history : List TaskRecord) (record : TaskRecord) :
    List TaskRecord :=
  let h := history ++ [record]
  if 50 < h.length then h.drop 1 else h

/-- Net effect of one `completeTask` call on the task history
(`farm-engine.ts` lines 103–108).  The engine first pushes the record and
trims the window inline, then calls `scorer.addRecord(record)`; the scorer was
constructed over the very same array (`this.scorer = new
EfficiencyScorer(this.state.stats.taskHistory)` in the constructor), so both
appends land on one shared list. -/
def completeTaskHistory (history : List TaskRecord) (record : TaskRecord) :
    List TaskRecord :=
  EfficiencyScorer.addRecord (recordTaskHistory history record) record

/-- Soil growth penalty used by `advanceCrops` (`farm-engine.ts` line 160):
one extra task per stage when soil health is below 50. -/
def soilPenaltyOf (p : PlotState) : Int :=
  if p.soilHealth < 50 then 1 else 0

/-- One iteration of the `advanceCrops` while loop (`farm-engine.ts` lines
164–176): advance one stage, recharge the countdown if still not mature, and
on reaching maturity with S quality consult the 5% golden roll (`roll` is the
outcome of `Math.random() < 0.05`).  Fuel `(maxStages - stage).toNat` bounds
the loop exactly in `advLoop` below, since each iteration increments `stage`
toward `maxStages`. -/
def advStep (soilPenalty : Int) (roll : Bool) (c : CropState) : CropState :=
  let c1 : CropState := { c with stage := c.stage + 1 }
  let c2 : CropState :=
    if c1.stage < c1.maxStages then
      { c1 with tasksUntilNextStage :=
          c1.tasksUntilNextStage + (CROP_DATA c1.type).tasksPerStage + soilPenalty }
    else c1
  if c2.stage = c2.maxStages ∧ c2.quality = Grade.S ∧ roll then
    { c2 with isGolden := true }
  else c2

/-- Iterating the while loop: run `advStep` while the guard
`tasksUntilNextStage ≤ 0 ∧ stage < maxStages` holds. -/
def advLoop (soilPenalty : Int) (roll : Bool) : Nat → CropState → CropState
  | 0, c => c
  | fuel + 1, c =>
    if c.tasksUntilNextStage ≤ 0 ∧ c.stage < c.maxStages then
      advLoop soilPenalty roll fuel (advStep soilPenalty roll c)
    else c

/-- Advance one plot's crop by `steps` tasks (`farm-engine.ts`,
`FarmEngine.advanceCrops`, body of the per-plot loop). -/
def advancePlot (steps : Int) (roll : Bool) (p : PlotState) : PlotState :=
  match p.type, p.crop with
  | PlotType.planted, some c =>
    let c0 : CropState := { c with tasksUntilNextStage := c.tasksUntilNextStage - steps }
    { p with crop := some (advLoop (soilPenaltyOf p) roll ((c0.maxStages - c0.stage).toNat) c0) }
  | _, _ => p

/-- Per-plot iteration of `advanceCrops`; `i` is the index of the next plot
and `rolls i` its golden-chance outcome. -/
def advanceCropsAux (steps : Int) (rolls : Nat → Bool) (i : Nat) :
    List PlotState → List PlotState
  | [] => []
  | p :: rest => advancePlot steps (rolls i) p :: advanceCropsAux steps rolls (i + 1) rest

/-- Advance all planted crops by `steps` tasks (`farm-engine.ts`,
`FarmEngine.advanceCrops`); `rolls i` is the golden-chance outcome for the
plot at index `i`. -/
def advanceCrops (steps : Int) (rolls : Nat → Bool) (plots : List PlotState) :
    List PlotState :=
  advanceCropsAux steps rolls 0 plots

/-- Number of items yielded by harvesting a crop (`farm-engine.ts`,
`FarmEngine.calculateHarvestQuantity`). -/
def calculateHarvestQuantity (crop : CropState) (soilHealth : Int) : Int :=
  let q0 : ℚ := 1
  let q1 : ℚ :=
    match crop.quality with
    | .S => q0 + 1
    | .A => q0 + 0.5
    | _ => q0
  let q2 : ℚ :=
    if 80 ≤ soilHealth then q1 + 0.5
    else if soilHealth < 30 then max 1 (q1 - 0.5)
    else q1
  let q3 : ℚ := if crop.isGolden then q2 * 1.5 else q2
  ⌊max 1 q3⌋

/-- Seed value of harvesting a crop (`farm-engine.ts`,
`FarmEngine.calculateSellValue`); `round` is `⌊x + 1/2⌋`, matching
JavaScript `Math.round`. -/
def calculateSellValue (crop : CropState) (soilHealth : Int) : Int :=
  let baseValue : ℚ := ((CROP_DATA crop.type).baseSellValue : ℚ)
  let v1 : ℚ :=
    match crop.quality with
    | .S => baseValue * 1.5
    | .A => baseValue * 1.2
    | .B => baseValue * 1.0
    | .C => baseValue * 0.7
  let v2 : ℚ := if crop.isGolden then v1 * 3 else v1
  let v3 : ℚ :=
    if 80 ≤ soilHealth then v2 * 1.2
    else if soilHealth < 30 then v2 * 0.8
    else v2
  round v3

/-- Harvest every mature crop (`farm-engine.ts`, `FarmEngine.processHarvests`):
deposit harvest items into the storehouse (capacity `cap`), accumulate sell
value, degrade soil by 10 (floored at 0), and either reset a regrowing crop or
clear the plot back to tilled.  Returns the updated plots, the updated
storehouse inventory, and the total seed value earned. -/
def processHarvests (cap : Int) :
    List PlotState → List ItemStack → Int → List PlotState × List ItemStack × Int
  | [], store, total => ([], store, total)
  | p :: rest, store, total =>
    match p.crop with
    | some c =>
      if p.type = PlotType.planted ∧ c.maxStages ≤ c.stage then
        let harvestItemId := cropToHarvestItem c.type c.isGolden
        let harvestQuantity := calculateHarvestQuantity c p.soilHealth
        let store1 :=
          if 0 < harvestQuantity then
            (InventoryManager.addItem store harvestItemId harvestQuantity (some cap)).2
          else store
        let sellValue := calculateSellValue c p.soilHealth
        let soil1 := max 0 (p.soilHealth - 10)
        let cropData := CROP_DATA c.type
        let p1 : PlotState :=
          match cropData.regrows with
          | some rg =>
            if 0 < rg then
              { p with soilHealth := soil1, crop := some { c with stage := cropData.stages - rg, tasksUntilNextStage := cropData.tasksPerStage, isGolden := false } }
            else
              { p with soilHealth := soil1, crop := none, type := PlotType.tilled }
          | none => { p with soilHealth := soil1, crop := none, type := PlotType.tilled }
        let r := processHarvests cap rest store1 (total + sellValue)
        (p1 :: r.1, r.2.1, r.2.2)
      else
        let r := processHarvests cap rest store total
        (p :: r.1, r.2.1, r.2.2)
    | none =>
      let r := processHarvests cap rest store total
      (p :: r.1, r.2.1, r.2.2)

/-- Seed-balance update after `processHarvests` (`farm-engine.ts` lines
220–224): the total is credited only when positive. -/
def applySeeds (seeds total : Int) : Int :=
  if 0 < total then seeds + total else seeds

/-- Fixed cyclic season order (`farm-engine.ts`, `updateSeason` line 288). -/
def seasonsOrder : List Season := [.spring, .summer, .fall, .winter]

/-- The next season in cyclic order (`updateSeason` lines 288–290):
`seasons[(seasons.indexOf(current) + 1) % 4]`. -/
def nextSeason (current : Season) : Season :=
  let currentIdx := seasonsOrder.findIdx (fun s => s == current)
  seasonsOrder.getD ((currentIdx + 1) % 4) Season.spring

/-- Whole days elapsed between two millisecond timestamps (`updateSeason`
line 283): `Math.floor((now - start) / 86_400_000)`. -/
def daysPassedCalc (nowMs startMs : Int) : Int :=
  Int.fdiv (nowMs - startMs) 86400000

/-- Wilt one plot on season rotation (`updateSeason` lines 295–302): a crop
not valid in the new season is cleared, the plot reverts to tilled, and soil
is restored by 5 capped at 100. -/
def wiltPlot (newSeason : Season) (p : PlotState) : PlotState :=
  match p.crop with
  | some c =>
    if isInSeason c.type newSeason then p
    else
      { p with
        crop := none,
        type := PlotType.tilled,
        soilHealth := min 100 (p.soilHealth + 5) }
  | none => p

/-- Result of one `updateSeason` call. -/
structure SeasonUpdate where
  daysSinceStart : Int
  season : Season
  seasonStartMs : Int
  plots : List PlotState
  rotated : Bool
deriving DecidableEq

/-- Season bookkeeping (`farm-engine.ts`, `FarmEngine.updateSeason`): when the
elapsed days reach the configured season length, rotate to the next season,
reset the season start, and wilt every out-of-season crop. -/
def updateSeason (nowMs startMs seasonLengthDays : Int) (current : Season)
    (plots : List PlotState) : SeasonUpdate :=
  let daysPassed := daysPassedCalc nowMs startMs
  if seasonLengthDays ≤ daysPassed then
    let newSeason := nextSeason current
    { daysSinceStart := daysPassed, season := newSeason, seasonStartMs := nowMs,
      plots := plots.map (wiltPlot newSeason), rotated := true }
  else
    { daysSinceStart := daysPassed, season := current, seasonStartMs := startMs,
      plots := plots, rotated := false }

end FarmEngine

namespace InventoryManager

/-- Structural restatement of `getCount`: quantity contributed per stack. -/
def countQ (itemId : String) : List ItemStack → Int
  | [] => 0
  | s :: rest => (if s.itemId = itemId then s.quantity else 0) + countQ itemId rest

end InventoryManager

/-- One inventory mutation, for stating closure of the stack invariant under
arbitrary call sequences. -/
inductive InvOp where
  | add (itemId : String) (quantity : Int) (maxSlots : Option Int)
  | remove (itemId : String) (quantity : Int)

/-- Apply one `addItem`/`removeItem` call, keeping the updated inventory. -/
def applyOp (inv : List ItemStack) : InvOp → List ItemStack
  | .add itemId q ms => (InventoryManager.addItem inv itemId q ms).2
  | .remove itemId q => (InventoryManager.removeItem inv itemId q).2

/-- Apply a sequence of `addItem`/`removeItem` calls in order. -/
def applyOps (inv : List ItemStack) (ops : List InvOp) : List ItemStack :=
  ops.foldl applyOp inv

/-- Concrete inventory: one full turnip stack (64/64). -/
def invFull : List ItemStack := [{ itemId := "turnip", quantity := 64, maxStack := 64 }]

/-- Concrete malformed inventory: one negative-quantity turnip stack. -/
def invNeg : List ItemStack := [{ itemId := "turnip", quantity := -5, maxStack := 64 }]

/-- Concrete inventory: one turnip stack holding 3 of 64. -/
def invThree : List ItemStack := [{ itemId := "turnip", quantity := 3, maxStack := 64 }]

/-- The spec's stated historical-density formula, for comparison with the
code's `histDensity`: the spec asserts the historical density is computed by
the same formula as the new result's density, namely
`outputLength / max(durationSeconds, 1)`. -/
def specHistDensity (h : TaskRecord) : ℚ :=
  EfficiencyScorer.optOrElse100 h.outputLength / max (h.duration / 1000) 1

/-- A task record with the given duration in milliseconds, output length 100. -/
def recordMs (d : ℚ) : TaskRecord :=
  { timestamp := 0, duration := d, outputLength := some 100, grade := Grade.B,
    actionsEarned := 1 }

/-- Ten-record history whose first record lasted 500 ms. -/
def histC5 : List TaskRecord := recordMs 500 :: List.replicate 9 (recordMs 1000)

/-- Ten-record history of identical 1000 ms / 100-character records. -/
def histC6 : List TaskRecord := List.replicate 10 (recordMs 1000)

/-- A concrete normalized task record (defaults: duration 5000 ms, output
length 100). -/
def c4record : TaskRecord :=
  { timestamp := 0, duration := 5000, outputLength := some 100, grade := Grade.B,
    actionsEarned := 1 }

/-- Concrete crop for the C7 witness: a freshly planted S-quality turnip. -/
def cropC7 : CropState :=
  { type := CropType.turnip, stage := 0, maxStages := 4, quality := Grade.S,
    isGolden := false, tasksUntilNextStage := 1 }

/-- Concrete plot for the C7 witness. -/
def plotC7 : PlotState :=
  { x := 0, y := 0, type := PlotType.planted, crop := some cropC7, soilHealth := 80 }

/-- Concrete plot for the C8 witness: a potato (spring-only crop) planted on
soil health 98. -/
def plotC8 : PlotState :=
  { x := 0, y := 0, type := PlotType.planted,
    crop := some { type := CropType.potato, stage := 1, maxStages := 4, quality := Grade.B, isGolden := false, tasksUntilNextStage := 1 },
    soilHealth := 98 }

/-- The scenario crop: a fully-grown (stage = maxStages = 4), S-quality,
non-golden turnip. -/
def cropC9 : CropState :=
  { type := CropType.turnip, stage := 4, maxStages := 4, quality := Grade.S,
    isGolden := false, tasksUntilNextStage := 0 }

/-- The scenario plot: the turnip above planted on soil health 80. -/
def plotC9 : PlotState :=
  { x := 0, y := 0, type := PlotType.planted, crop := some cropC9, soilHealth := 80 }

/-! ### Basic counting lemmas for inventories -/

namespace InventoryManager

theorem foldl_add_quantity (l : List ItemStack) (acc : Int) :
    l.foldl (fun total s => total + s.quantity) acc =
      acc + l.foldl (fun total s => total + s.quantity) 0 := by
  induction l generalizing acc with
  | nil => simp
  | cons s t ih =>
    simp only [List.foldl_cons]
    rw [ih (acc + s.quantity), ih (0 + s.quantity)]
    ring

theorem getCount_eq_countQ (inv : List ItemStack) (itemId : String) :
    getCount inv itemId = countQ itemId inv := by
  induction inv with
  | nil => rfl
  | cons s t ih =>
    unfold getCount at ih ⊢
    by_cases h : s.itemId = itemId
    · simp only [List.filter_cons, h, beq_self_eq_true, if_pos, List.foldl_cons, countQ]
      rw [foldl_add_quantity]
      simp [ih, h]
    · have hb : (s.itemId == itemId) = false := beq_eq_false_iff_ne.mpr h
      simp only [List.filter_cons, hb, Bool.false_eq_true, if_neg, countQ, h]
      simpa using ih

theorem countQ_nonneg (itemId : String) (inv : List ItemStack)
    (h : ∀ s ∈ inv, 0 ≤ s.quantity) : 0 ≤ countQ itemId inv := by
  induction inv with
  | nil => simp [countQ]
  | cons s t ih =>
    have hs := h s (by simp)
    have ht := ih (fun x hx => h x (by simp [hx]))
    unfold countQ
    split <;> omega

theorem countQ_append (itemId : String) (a b : List ItemStack) :
    countQ itemId (a ++ b) = countQ itemId a + countQ itemId b := by
  induction a with
  | nil => simp [countQ]
  | cons s t ih =>
    simp only [List.cons_append, countQ]
    rw [show (t.append b) = t ++ b from rfl, ih]
    ring

end InventoryManager

/-! ### Registry facts -/

theorem lookup_maxStack_pos (l : List (String × ItemDefinition))
    (hl : ∀ p ∈ l, 1 ≤ p.2.maxStack) (itemId : String) (d : ItemDefinition)
    (h : List.lookup itemId l = some d) : 1 ≤ d.maxStack := by
  induction l with
  | nil => simp [List.lookup] at h
  | cons p t ih =>
    unfold List.lookup at h
    split at h
    · cases h
      exact hl p (by simp)
    · exact ih (fun x hx => hl x (by simp [hx])) h

theorem getItem_maxStack_pos (itemId : String) (d : ItemDefinition)
    (h : getItem itemId = some d) : 1 ≤ d.maxStack :=
  lookup_maxStack_pos ITEM_REGISTRY (by decide) itemId d h

/-! ### Lemmas about `addItem` -/

namespace InventoryManager

theorem cdiv_pos (a b : Int) (ha : 1 ≤ a) (hb : 1 ≤ b) : 1 ≤ cdiv a b := by
  unfold cdiv
  rw [Int.le_ediv_iff_mul_le (by omega)]
  omega

theorem cdiv_sub_same (a b : Int) (hb : b ≠ 0) : cdiv (a - b) b = cdiv a b - 1 := by
  unfold cdiv
  have h1 : a - b + b - 1 = a + b - 1 + -1 * b := by ring
  rw [h1, Int.add_mul_ediv_right _ _ hb]
  ring

theorem fillExisting_length (itemId : String) (inv : List ItemStack) (r : Int) :
    (fillExisting itemId inv r).1.length = inv.length := by
  induction inv generalizing r with
  | nil => rfl
  | cons s t ih =>
    unfold fillExisting
    split <;> simp [ih]

theorem fillExisting_snd_bounds (itemId : String) (inv : List ItemStack) (r : Int)
    (hr : 0 ≤ r) : 0 ≤ (fillExisting itemId inv r).2 ∧ (fillExisting itemId inv r).2 ≤ r := by
  induction inv generalizing r with
  | nil => exact ⟨hr, le_refl r⟩
  | cons s t ih =>
    unfold fillExisting
    split
    · next hcond =>
      have hc : 0 ≤ min r (s.maxStack - s.quantity) ∧ min r (s.maxStack - s.quantity) ≤ r := by
        have := hcond.2
        omega
      have := ih (r - min r (s.maxStack - s.quantity)) (by omega)
      simp only
      omega
    · exact ih r hr

theorem fillExisting_eq_spaceRemaining (itemId : String) (inv : List ItemStack) (r : Int) :
    (fillExisting itemId inv r).2 = spaceRemaining itemId inv r := by
  induction inv generalizing r with
  | nil => rfl
  | cons s t ih =>
    unfold fillExisting spaceRemaining
    split
    · simpa using ih (r - min r (s.maxStack - s.quantity))
    · exact ih r

theorem fillExisting_countQ (itemId : String) (inv : List ItemStack) (r : Int) :
    countQ itemId (fillExisting itemId inv r).1 =
      countQ itemId inv + (r - (fillExisting itemId inv r).2) := by
  induction inv generalizing r with
  | nil => simp [fillExisting, countQ]
  | cons s t ih =>
    unfold fillExisting
    split
    · next hcond =>
      simp only [countQ, hcond.1, if_pos]
      rw [ih (r - min r (s.maxStack - s.quantity))]
      ring
    · next hcond =>
      simp only [countQ]
      rw [ih r]
      ring

theorem fillExisting_invariant (itemId : String) (inv : List ItemStack) (r : Int)
    (hr : 0 ≤ r) (hinv : ∀ s ∈ inv, 0 < s.quantity ∧ s.quantity ≤ s.maxStack) :
    ∀ s ∈ (fillExisting itemId inv r).1, 0 < s.quantity ∧ s.quantity ≤ s.maxStack := by
  induction inv generalizing r with
  | nil => simp [fillExisting]
  | cons s t ih =>
    have hs := hinv s (by simp)
    have ht : ∀ x ∈ t, 0 < x.quantity ∧ x.quantity ≤ x.maxStack :=
      fun x hx => hinv x (by simp [hx])
    unfold fillExisting
    split
    · next hcond =>
      intro x hx
      simp only [List.mem_cons] at hx
      rcases hx with hx | hx
      · subst hx
        have h1 := hs
        have h2 := hcond.2
        show 0 < s.quantity + min r (s.maxStack - s.quantity) ∧
          s.quantity + min r (s.maxStack - s.quantity) ≤ s.maxStack
        omega
      · exact ih (r - min r (s.maxStack - s.quantity)) (by have := hcond.2; omega) ht x hx
    · intro x hx
      simp only [List.mem_cons] at hx
      rcases hx with hx | hx
      · subst hx; exact hs
      · exact ih r hr ht x hx

theorem newStacks_countQ (itemId : String) (maxStack : Int) (maxSlots : Option Int)
    (fuel : Nat) (len r : Int) :
    countQ itemId (newStacks itemId maxStack maxSlots fuel len r).1 =
      r - (newStacks itemId maxStack maxSlots fuel len r).2 := by
  induction fuel generalizing len r with
  | zero => simp [newStacks, countQ]
  | succ fuel ih =>
    unfold newStacks
    split
    · simp only [countQ, if_true]
      rw [ih (len + 1) (r - min r maxStack)]
      ring
    · simp [countQ]

theorem newStacks_invariant (itemId : String) (maxStack : Int) (maxSlots : Option Int)
    (hms : 1 ≤ maxStack) (fuel : Nat) (len r : Int) :
    ∀ s ∈ (newStacks itemId maxStack maxSlots fuel len r).1,
      0 < s.quantity ∧ s.quantity ≤ s.maxStack := by
  induction fuel generalizing len r with
  | zero => simp [newStacks]
  | succ fuel ih =>
    unfold newStacks
    split
    · next hcond =>
      intro x hx
      simp only [List.mem_cons] at hx
      rcases hx with hx | hx
      · subst hx
        have h1 := hcond.1
        show 0 < min r maxStack ∧ min r maxStack ≤ maxStack
        omega
      · exact ih (len + 1) (r - min r maxStack) x hx
    · simp

theorem newStacks_exhausts (itemId : String) (maxStack m : Int) (hms : 1 ≤ maxStack) :
    ∀ (fuel : Nat) (len r : Int), 0 ≤ r → r.toNat ≤ fuel →
      cdiv r maxStack ≤ m - len →
      (newStacks itemId maxStack (some m) fuel len r).2 = 0 := by
  intro fuel
  induction fuel with
  | zero =>
    intro len r hr hfuel _
    have : r = 0 := by omega
    simp [newStacks, this]
  | succ fuel ih =>
    intro len r hr hfuel hdiv
    by_cases hr0 : r = 0
    · subst hr0
      unfold newStacks
      rw [if_neg (by simp)]
    · have hrpos : 0 < r := by omega
      have hone : 1 ≤ cdiv r maxStack := cdiv_pos r maxStack (by omega) hms
      have hlen : len < m := by omega
      unfold newStacks
      rw [if_pos ⟨hrpos, by simp [slotOk, hlen]⟩]
      simp only
      have hzero : cdiv 0 maxStack = 0 := by
        unfold cdiv
        rw [show (0 : Int) + maxStack - 1 = maxStack - 1 by ring]
        exact Int.ediv_eq_zero_of_lt (by omega) (by omega)
      by_cases hsmall : r ≤ maxStack
      · have hmin : min r maxStack = r := min_eq_left hsmall
        rw [hmin, sub_self]
        exact ih (len + 1) 0 (le_refl 0) (by omega) (by omega)
      · have hmin : min r maxStack = maxStack := min_eq_right (by omega)
        rw [hmin]
        have hsub : cdiv (r - maxStack) maxStack = cdiv r maxStack - 1 :=
          cdiv_sub_same r maxStack (by omega)
        exact ih (len + 1) (r - maxStack) (by omega) (by omega) (by omega)

theorem addItem_countQ (inv : List ItemStack) (itemId : String) (q : Int)
    (maxSlots : Option Int) :
    countQ itemId (addItem inv itemId q maxSlots).2 =
      countQ itemId inv + (addItem inv itemId q maxSlots).1.processed := by
  unfold addItem
  by_cases hq : q ≤ 0
  · simp [hq]
  · rw [if_neg hq]
    cases hget : getItem itemId with
    | none => simp
    | some d =>
      simp only
      rw [countQ_append, fillExisting_countQ, newStacks_countQ]
      ring

theorem addItem_invariant (inv : List ItemStack) (itemId : String) (q : Int)
    (maxSlots : Option Int) (hinv : InvariantOK inv) :
    InvariantOK (addItem inv itemId q maxSlots).2 := by
  unfold addItem
  by_cases hq : q ≤ 0
  · simpa [hq] using hinv
  · rw [if_neg hq]
    cases hget : getItem itemId with
    | none => simpa using hinv
    | some d =>
      have hms : 1 ≤ d.maxStack := getItem_maxStack_pos itemId d hget
      intro x hx
      simp only [List.mem_append] at hx
      rcases hx with hx | hx
      · exact fillExisting_invariant itemId inv q (by omega) hinv x hx
      · exact newStacks_invariant itemId d.maxStack maxSlots hms _ _ _ x hx

theorem addItem_success_processed (inv : List ItemStack) (itemId : String) (q : Int)
    (maxSlots : Option Int) (hq : 0 < q)
    (hs : (addItem inv itemId q maxSlots).1.success = true) :
    (addItem inv itemId q maxSlots).1.processed = q := by
  unfold addItem at hs ⊢
  rw [if_neg (by omega)] at hs ⊢
  revert hs
  cases hget : getItem itemId with
  | none =>
    intro hs
    simp at hs
  | some d =>
    dsimp only
    rw [decide_eq_true_eq]
    intro hs
    omega

theorem addItem_success_of_hasSpace (inv : List ItemStack) (itemId : String)
    (q m : Int) (hq : 0 < q) (h : hasSpace inv itemId q m = true) :
    (addItem inv itemId q (some m)).1.success = true := by
  unfold hasSpace at h
  unfold addItem
  rw [if_neg (by omega)] at h ⊢
  revert h
  cases hget : getItem itemId with
  | none =>
    intro h
    simp at h
  | some d =>
    dsimp only
    intro h
    have hms : 1 ≤ d.maxStack := getItem_maxStack_pos itemId d hget
    have hbounds := fillExisting_snd_bounds itemId inv q (by omega)
    have hrem : (fillExisting itemId inv q).2 = spaceRemaining itemId inv q :=
      fillExisting_eq_spaceRemaining itemId inv q
    rw [decide_eq_true_eq]
    by_cases hz : spaceRemaining itemId inv q ≤ 0
    · have hr0 : (fillExisting itemId inv q).2 = 0 := by omega
      rw [hr0]
      simp [newStacks]
    · rw [if_neg hz, decide_eq_true_eq] at h
      have hlen : (fillExisting itemId inv q).1.length = inv.length :=
        fillExisting_length itemId inv q
      apply newStacks_exhausts itemId d.maxStack m hms _ _ _ (by omega) (le_refl _)
      rw [hrem, hlen]
      exact h

/-! ### Lemmas about `removeItem` -/

theorem removeStep_countQ (itemId : String) (s : ItemStack) (r : List ItemStack × Int) :
    countQ itemId (removeStep itemId s r).1 =
      (if s.itemId = itemId then s.quantity else 0) + countQ itemId r.1 -
        (r.2 - (removeStep itemId s r).2) := by
  simp only [removeStep]
  split_ifs <;> simp_all [countQ] <;> omega

theorem removeStep_snd (itemId : String) (s : ItemStack) (r : List ItemStack × Int)
    (hr : 0 ≤ r.2) (hq : 0 ≤ s.quantity) :
    (removeStep itemId s r).2 =
      max 0 (r.2 - (if s.itemId = itemId then s.quantity else 0)) := by
  simp only [removeStep]
  split_ifs <;> omega

theorem removeStep_invariant (itemId : String) (s : ItemStack) (r : List ItemStack × Int)
    (hs : 0 < s.quantity ∧ s.quantity ≤ s.maxStack) (hr1 : InvariantOK r.1)
    (hr2 : 0 ≤ r.2) : InvariantOK (removeStep itemId s r).1 := by
  simp only [removeStep]
  split_ifs with h0 hmatch hzero
  · intro x hx
    rcases List.mem_cons.mp hx with hx | hx
    · subst hx; exact hs
    · exact hr1 x hx
  · exact fun x hx => hr1 x hx
  · intro x hx
    rcases List.mem_cons.mp hx with hx | hx
    · subst hx
      show 0 < s.quantity - min r.2 s.quantity ∧
        s.quantity - min r.2 s.quantity ≤ s.maxStack
      omega
    · exact hr1 x hx
  · intro x hx
    rcases List.mem_cons.mp hx with hx | hx
    · subst hx; exact hs
    · exact hr1 x hx

theorem removeLoop_countQ (itemId : String) (inv : List ItemStack) (r : Int) :
    countQ itemId (removeLoop itemId inv r).1 =
      countQ itemId inv - (r - (removeLoop itemId inv r).2) := by
  induction inv with
  | nil => simp [removeLoop, countQ]
  | cons s t ih =>
    show countQ itemId (removeStep itemId s (removeLoop itemId t r)).1 =
      countQ itemId (s :: t) - (r - (removeStep itemId s (removeLoop itemId t r)).2)
    rw [removeStep_countQ]
    simp only [countQ]
    omega

theorem removeLoop_snd (itemId : String) (inv : List ItemStack)
    (hnn : ∀ s ∈ inv, 0 ≤ s.quantity) (r : Int) (hr : 0 ≤ r) :
    (removeLoop itemId inv r).2 = max 0 (r - countQ itemId inv) := by
  induction inv with
  | nil =>
    simp only [removeLoop, countQ]
    omega
  | cons s t ih =>
    have hs := hnn s (by simp)
    have ht := ih (fun x hx => hnn x (by simp [hx]))
    have hrl2 : 0 ≤ (removeLoop itemId t r).2 := by
      rw [ht]
      omega
    show (removeStep itemId s (removeLoop itemId t r)).2 = _
    rw [removeStep_snd itemId s _ hrl2 hs, ht]
    by_cases hmatch : s.itemId = itemId
    · simp only [countQ, if_pos hmatch]
      omega
    · simp only [countQ, if_neg hmatch]
      omega

theorem removeLoop_invariant (itemId : String) (inv : List ItemStack)
    (hinv : InvariantOK inv) (r : Int) (hr : 0 ≤ r) :
    InvariantOK (removeLoop itemId inv r).1 := by
  induction inv with
  | nil => simpa [removeLoop] using hinv
  | cons s t ih =>
    have hs := hinv s (by simp)
    have htinv : InvariantOK t := fun x hx => hinv x (by simp [hx])
    have hnn : ∀ x ∈ t, 0 ≤ x.quantity := fun x hx => le_of_lt (htinv x hx).1
    have hrl2 : 0 ≤ (removeLoop itemId t r).2 := by
      rw [removeLoop_snd itemId t hnn r hr]
      omega
    show InvariantOK (removeStep itemId s (removeLoop itemId t r)).1
    exact removeStep_invariant itemId s _ hs (ih htinv) hrl2

theorem removeItem_countQ (inv : List ItemStack) (itemId : String) (q : Int) :
    countQ itemId (removeItem inv itemId q).2 =
      countQ itemId inv - (removeItem inv itemId q).1.processed := by
  unfold removeItem
  by_cases hq : q ≤ 0
  · simp [hq]
  · rw [if_neg hq]
    simp only
    rw [removeLoop_countQ]

theorem removeItem_success (inv : List ItemStack) (itemId : String) (q : Int)
    (hnn : ∀ s ∈ inv, 0 ≤ s.quantity) (hq : 0 < q) (hle : q ≤ countQ itemId inv) :
    (removeItem inv itemId q).1.success = true ∧
      (removeItem inv itemId q).1.processed = q := by
  unfold removeItem
  rw [if_neg (by omega)]
  have hsnd := removeLoop_snd itemId inv hnn q (by omega)
  simp only [decide_eq_true_eq]
  omega

theorem removeItem_invariant (inv : List ItemStack) (itemId : String) (q : Int)
    (hinv : InvariantOK inv) : InvariantOK (removeItem inv itemId q).2 := by
  unfold removeItem
  by_cases hq : q ≤ 0
  · simpa [hq] using hinv
  · rw [if_neg hq]
    exact removeLoop_invariant itemId inv hinv q (by omega)

end InventoryManager

/-! ### Transfer lemmas -/

namespace InventoryManager

theorem getCount_nonneg (inv : List ItemStack) (itemId : String)
    (hnn : ∀ s ∈ inv, 0 ≤ s.quantity) : 0 ≤ getCount inv itemId := by
  rw [getCount_eq_countQ]
  exact countQ_nonneg itemId inv hnn

theorem transfer_fail_unchanged (f t : List ItemStack) (itemId : String) (q m : Int)
    (hnn : ∀ s ∈ f, 0 ≤ s.quantity)
    (hfail : (transfer f t itemId q m).1.success = false) :
    (transfer f t itemId q m).2.1 = f ∧ (transfer f t itemId q m).2.2 = t := by
  have hcnt : 0 ≤ getCount f itemId := getCount_nonneg f itemId hnn
  simp only [transfer] at hfail ⊢
  split_ifs at hfail ⊢ with h1 h2 h3 h4
  · exact ⟨rfl, rfl⟩
  · exact ⟨rfl, rfl⟩
  · exfalso
    by_cases hq : q ≤ 0
    · have ha : min q (getCount f itemId) ≤ 0 := by omega
      unfold removeItem at h3
      rw [if_pos ha] at h3
      simp at h3
    · have ha : 0 < min q (getCount f itemId) := by omega
      have hle : min q (getCount f itemId) ≤ countQ itemId f := by
        rw [← getCount_eq_countQ]
        omega
      have := (removeItem_success f itemId (min q (getCount f itemId)) hnn ha hle).1
      rw [this] at h3
      simp at h3
  · exfalso
    have hsp : hasSpace t itemId (min q (getCount f itemId)) m = true := by
      cases hx : hasSpace t itemId (min q (getCount f itemId)) m
      · exact absurd hx h2
      · rfl
    by_cases hq : q ≤ 0
    · have ha : min q (getCount f itemId) ≤ 0 := by omega
      unfold addItem at h4
      rw [if_pos ha] at h4
      simp at h4
    · have ha : 0 < min q (getCount f itemId) := by omega
      have := addItem_success_of_hasSpace t itemId (min q (getCount f itemId)) m ha hsp
      rw [this] at h4
      simp at h4

end InventoryManager

/-! ### Inventory operation sequences -/

open InventoryManager in
/-- C1: Transfer atomicity.  For every pair of well-formed inventories and
every call `transfer(from, to, itemId, qty, toMaxSlots)` that returns
`success: false`, the combined count `getCount(from, itemId) +
getCount(to, itemId)` equals its value before the call — no item is leaked or
duplicated. -/
theorem C1_transfer_atomicity (fromInventory toInventory : List ItemStack)
    (itemId : String) (quantity toMaxSlots : Int)
    (hfrom : InvariantOK fromInventory) (hto : InvariantOK toInventory)
    (hfail : (transfer fromInventory toInventory itemId quantity toMaxSlots).1.success = false) :
    getCount (transfer fromInventory toInventory itemId quantity toMaxSlots).2.1 itemId +
      getCount (transfer fromInventory toInventory itemId quantity toMaxSlots).2.2 itemId =
      getCount fromInventory itemId + getCount toInventory itemId := by
  have hnn : ∀ s ∈ fromInventory, 0 ≤ s.quantity := fun s hs => le_of_lt (hfrom s hs).1
  obtain ⟨h1, h2⟩ :=
    transfer_fail_unchanged fromInventory toInventory itemId quantity toMaxSlots hnn hfail
  rw [h1, h2]

open InventoryManager in
/-- Witness for C1 at a concrete failing transfer: moving 5 turnips between
two empty inventories fails and preserves the combined count. -/
theorem C1_transfer_atomicity_witness :
    InvariantOK [] ∧
    (transfer [] [] "turnip" 5 1).1.success = false ∧
    getCount (transfer [] [] "turnip" 5 1).2.1 "turnip" +
        getCount (transfer [] [] "turnip" 5 1).2.2 "turnip" =
      getCount [] "turnip" + getCount [] "turnip" :=
  ⟨by decide, by decide,
    C1_transfer_atomicity [] [] "turnip" 5 1 (by decide) (by decide) (by decide)⟩

open InventoryManager in
/-- Counterexample for C2 as stated.  First: on the well-formed inventory
`invFull` (one full 64/64 turnip stack, one slot), `addItem` of 1 turnip
overflows, and the subsequent `removeItem` of 1 turnip drops the count from
64 to 63 — the round trip does not restore the original count.  Second: even
when `addItem` succeeds, a stack with negative quantity (quantities outside
the data model's invariant) breaks the round trip, so the amended claim keeps
the stack invariant as a hypothesis. -/
theorem C2_round_trip_counterexample :
    (InvariantOK invFull ∧ (0 : Int) < 1 ∧
      getCount (removeItem (addItem invFull "turnip" 1 (some 1)).2 "turnip" 1).2 "turnip" ≠
        getCount invFull "turnip") ∧
    ((addItem invNeg "turnip" 1 (some 1)).1.success = true ∧
      getCount (removeItem (addItem invNeg "turnip" 1 (some 1)).2 "turnip" 1).2 "turnip" ≠
        getCount invNeg "turnip") := by
  decide

open InventoryManager in
/-- C2 (amended): For every inventory satisfying the stack invariant, item
id, quantity `q > 0` and slot bound, if the `addItem(inv, id, q, slots)` call
reports `success: true`, then calling `removeItem(inv, id, q)` immediately
afterwards leaves `getCount(inv, id)` equal to its value before the
`addItem` call. -/
theorem C2_round_trip_amended (inv : List ItemStack) (itemId : String) (q : Int)
    (maxSlots : Option Int) (hinv : InvariantOK inv) (hq : 0 < q)
    (hs : (addItem inv itemId q maxSlots).1.success = true) :
    getCount (removeItem (addItem inv itemId q maxSlots).2 itemId q).2 itemId =
      getCount inv itemId := by
  have hproc := addItem_success_processed inv itemId q maxSlots hq hs
  have hcnt : countQ itemId (addItem inv itemId q maxSlots).2 = countQ itemId inv + q := by
    rw [addItem_countQ, hproc]
  have hinv2 := addItem_invariant inv itemId q maxSlots hinv
  have hnn2 : ∀ s ∈ (addItem inv itemId q maxSlots).2, 0 ≤ s.quantity :=
    fun s hs2 => le_of_lt (hinv2 s hs2).1
  have hnn : ∀ s ∈ inv, 0 ≤ s.quantity := fun s hs2 => le_of_lt (hinv s hs2).1
  have h0 : 0 ≤ countQ itemId inv := countQ_nonneg itemId inv hnn
  have hle : q ≤ countQ itemId (addItem inv itemId q maxSlots).2 := by omega
  have hrem := (removeItem_success (addItem inv itemId q maxSlots).2 itemId q hnn2 hq hle).2
  rw [getCount_eq_countQ, removeItem_countQ, hrem, hcnt, getCount_eq_countQ]
  ring

open InventoryManager in
/-- Witness for C2 (amended): adding 10 turnips to a 60/64 stack with two
slots succeeds, and removing 10 again restores the count 60. -/
theorem C2_round_trip_witness :
    InvariantOK [{ itemId := "turnip", quantity := 60, maxStack := 64 }] ∧
    (0 : Int) < 10 ∧
    (addItem [{ itemId := "turnip", quantity := 60, maxStack := 64 }] "turnip" 10 (some 2)).1.success = true ∧
    getCount (removeItem (addItem [{ itemId := "turnip", quantity := 60, maxStack := 64 }] "turnip" 10 (some 2)).2 "turnip" 10).2 "turnip" =
      getCount [{ itemId := "turnip", quantity := 60, maxStack := 64 }] "turnip" :=
  ⟨by decide, by decide, by decide,
    C2_round_trip_amended [{ itemId := "turnip", quantity := 60, maxStack := 64 }]
      "turnip" 10 (some 2) (by decide) (by decide) (by decide)⟩

/-- C3: Stacking invariant.  Starting from an inventory whose stacks all
satisfy `0 < quantity ≤ maxStack`, after any sequence of
`addItem`/`removeItem` calls every remaining stack still satisfies
`0 < quantity ≤ maxStack`; in particular no stack with quantity 0 is ever
left in the list. -/
theorem C3_stacking_invariant (inv : List ItemStack) (ops : List InvOp)
    (hinv : InvariantOK inv) : InvariantOK (applyOps inv ops) := by
  induction ops generalizing inv with
  | nil => exact hinv
  | cons op rest ih =>
    cases op with
    | add itemId q ms =>
      exact ih _ (InventoryManager.addItem_invariant inv itemId q ms hinv)
    | remove itemId q =>
      exact ih _ (InventoryManager.removeItem_invariant inv itemId q hinv)

/-- Witness for C3 on a concrete sequence: add 100 turnips into 2 slots
(overflowing), remove 3, then add 5 unknown items; the stack invariant holds
at the end. -/
theorem C3_stacking_invariant_witness :
    InvariantOK [] ∧
    InvariantOK (applyOps []
      [InvOp.add "turnip" 100 (some 2), InvOp.remove "turnip" 3,
        InvOp.add "mystery" 5 (some 9)]) :=
  ⟨by decide,
    C3_stacking_invariant []
      [InvOp.add "turnip" 100 (some 2), InvOp.remove "turnip" 3,
        InvOp.add "mystery" 5 (some 9)] (by decide)⟩

open InventoryManager in
/-- C10: Transfer clamping reports success.  For every call
`transfer(from, to, itemId, qty, toMaxSlots)` where the source holds
`available` items with `0 < available < qty` and the destination has space
for `available`, the call moves exactly `available` items and returns
`{success: true, processed: available, overflow: qty - available}`. -/
theorem C10_transfer_clamping (fromInventory toInventory : List ItemStack)
    (itemId : String) (quantity toMaxSlots : Int)
    (hfrom : InvariantOK fromInventory)
    (havail : 0 < getCount fromInventory itemId)
    (hlt : getCount fromInventory itemId < quantity)
    (hsp : hasSpace toInventory itemId (getCount fromInventory itemId) toMaxSlots = true) :
    (transfer fromInventory toInventory itemId quantity toMaxSlots).1 =
      { success := true, processed := getCount fromInventory itemId,
        overflow := quantity - getCount fromInventory itemId } ∧
    getCount (transfer fromInventory toInventory itemId quantity toMaxSlots).2.1 itemId = 0 ∧
    getCount (transfer fromInventory toInventory itemId quantity toMaxSlots).2.2 itemId =
      getCount toInventory itemId + getCount fromInventory itemId := by
  have hnn : ∀ s ∈ fromInventory, 0 ≤ s.quantity := fun s hs => le_of_lt (hfrom s hs).1
  have hmin : min quantity (getCount fromInventory itemId) = getCount fromInventory itemId :=
    min_eq_right (le_of_lt hlt)
  have hle : getCount fromInventory itemId ≤ countQ itemId fromInventory := by
    rw [getCount_eq_countQ]
  have hrem := removeItem_success fromInventory itemId (getCount fromInventory itemId) hnn havail hle
  have hadd := addItem_success_of_hasSpace toInventory itemId (getCount fromInventory itemId)
    toMaxSlots havail hsp
  have haddp := addItem_success_processed toInventory itemId (getCount fromInventory itemId)
    (some toMaxSlots) havail hadd
  simp only [transfer, hmin]
  rw [if_neg (by omega), if_neg (by simp [hsp]), if_neg (by simp [hrem.1]),
    if_neg (by simp [hadd])]
  refine ⟨?_, ?_, ?_⟩
  · simp [InventoryOperationResult.mk.injEq, haddp]
  · rw [getCount_eq_countQ, removeItem_countQ, hrem.2, ← getCount_eq_countQ]
    omega
  · rw [getCount_eq_countQ, addItem_countQ, haddp, ← getCount_eq_countQ]

open InventoryManager in
/-- Witness for C10: transferring 5 turnips from a stack of 3 into an empty
one-slot inventory moves exactly 3 and reports success with overflow 2. -/
theorem C10_transfer_clamping_witness :
    InvariantOK invThree ∧
    (0 : Int) < getCount invThree "turnip" ∧
    getCount invThree "turnip" < 5 ∧
    hasSpace [] "turnip" (getCount invThree "turnip") 1 = true ∧
    ((transfer invThree [] "turnip" 5 1).1 =
      { success := true, processed := getCount invThree "turnip",
        overflow := 5 - getCount invThree "turnip" } ∧
    getCount (transfer invThree [] "turnip" 5 1).2.1 "turnip" = 0 ∧
    getCount (transfer invThree [] "turnip" 5 1).2.2 "turnip" =
      getCount [] "turnip" + getCount invThree "turnip") :=
  ⟨by decide, by decide, by decide, by decide,
    C10_transfer_clamping invThree [] "turnip" 5 1 (by decide) (by decide) (by decide) (by decide)⟩

/-! ### Scorer density and grading -/

/-- Counterexample for C5 as stated: the 10-record history `histC5` contains
the record of duration 500 ms, which passes the `duration > 0` filter, yet
the density the code computes for it differs from the spec's formula — the
code divides by `duration / 1000` without the `max(·, 1)` clamp, giving 200
instead of 100. -/
theorem C5_density_counterexample :
    10 ≤ histC5.length ∧ recordMs 500 ∈ histC5 ∧ 0 < (recordMs 500).duration ∧
    EfficiencyScorer.histDensity (recordMs 500) ≠ specHistDensity (recordMs 500) := by
  have h1 : EfficiencyScorer.histDensity (recordMs 500) = 200 := by
    simp only [EfficiencyScorer.histDensity, EfficiencyScorer.optOrElse100,
      EfficiencyScorer.orElse100, recordMs]
    norm_num
  have h2 : specHistDensity (recordMs 500) = 100 := by
    simp only [specHistDensity, EfficiencyScorer.optOrElse100,
      EfficiencyScorer.orElse100, recordMs]
    rw [show max ((500 : ℚ) / 1000) 1 = 1 from max_eq_right (by norm_num)]
    norm_num
  refine ⟨by decide, by simp [histC5], by norm_num [recordMs], ?_⟩
  rw [h1, h2]
  norm_num

/-- C5 (amended): in `score`, historical densities are computed as
`(outputLength || 100) / (duration / 1000)` with no `max(·, 1)` clamp on the
duration; this coincides with the new result's formula exactly for records
whose duration is at least 1000 ms. -/
theorem C5_density_amended (h : TaskRecord) (hd : (1000 : ℚ) ≤ h.duration) :
    EfficiencyScorer.histDensity h = specHistDensity h := by
  unfold EfficiencyScorer.histDensity specHistDensity
  have hmax : max (h.duration / 1000) 1 = h.duration / 1000 := by
    apply max_eq_left
    rw [le_div_iff₀ (by norm_num)]
    linarith
  rw [hmax]

/-- Witness for C5 (amended) at a 2000 ms record. -/
theorem C5_density_witness :
    (1000 : ℚ) ≤ (recordMs 2000).duration ∧
    EfficiencyScorer.histDensity (recordMs 2000) = specHistDensity (recordMs 2000) :=
  ⟨by norm_num [recordMs], C5_density_amended (recordMs 2000) (by norm_num [recordMs])⟩

theorem countP_lt_mono (l : List ℚ) (d2 d1 : ℚ) (h : d2 ≤ d1) :
    l.countP (fun v => decide (v < d2)) ≤ l.countP (fun v => decide (v < d1)) := by
  induction l with
  | nil => simp
  | cons a t ih =>
    simp only [List.countP_cons]
    have hstep : (if decide (a < d2) = true then 1 else 0) ≤
        ((if decide (a < d1) = true then 1 else 0) : Nat) := by
      by_cases h2 : a < d2
      · have h1 : a < d1 := lt_of_lt_of_le h2 h
        rw [if_pos (by simpa using h2), if_pos (by simpa using h1)]
      · rw [if_neg (by simpa using h2)]
        exact Nat.zero_le _
    omega

theorem getPercentile_mono (s : List ℚ) (d2 d1 : ℚ) (h : d2 ≤ d1) :
    EfficiencyScorer.getPercentile d2 s ≤ EfficiencyScorer.getPercentile d1 s := by
  unfold EfficiencyScorer.getPercentile
  split_ifs with hs
  · exact le_refl _
  · have hlen : 0 < s.length := List.length_pos.mpr hs
    have hcnt := countP_lt_mono s d2 d1 h
    have hcast : ((s.countP (fun v => decide (v < d2)) : ℚ)) ≤
        (s.countP (fun v => decide (v < d1)) : ℚ) := by exact_mod_cast hcnt
    gcongr

theorem gradeOfPercentile_mono (p2 p1 : ℚ) (h : p2 ≤ p1) :
    gradeValue (EfficiencyScorer.gradeOfPercentile p2) ≤
      gradeValue (EfficiencyScorer.gradeOfPercentile p1) := by
  unfold EfficiencyScorer.gradeOfPercentile
  split_ifs <;> simp [gradeValue] <;> linarith

/-- C6: Grade monotonicity.  For a fixed task history and two non-manual
results, if the first result's output density is strictly higher than the
second's, then `score` never assigns the first result a lower grade than the
second (grades ordered C < B < A < S on the 1–4 scale of `gradeValue`). -/
theorem C6_grade_monotonicity (history : List TaskRecord) (r1 r2 : TaskResult)
    (hm1 : r1.manual = false) (hm2 : r2.manual = false)
    (hd : EfficiencyScorer.newDensity r2 < EfficiencyScorer.newDensity r1) :
    gradeValue (EfficiencyScorer.score history r2) ≤
      gradeValue (EfficiencyScorer.score history r1) := by
  unfold EfficiencyScorer.score
  rw [hm1, hm2]
  simp only [Bool.false_eq_true, if_false]
  split_ifs with hlen
  · exact le_refl _
  · exact gradeOfPercentile_mono _ _
      (getPercentile_mono _ _ _ (le_of_lt hd))

/-- Witness for C6: against ten identical 1000 ms / 100-character records, a
200-density result grades at least as high as a 50-density one. -/
theorem C6_grade_monotonicity_witness :
    ({ duration := 1000, outputLength := 200, success := true, manual := false } : TaskResult).manual = false ∧
    ({ duration := 1000, outputLength := 50, success := true, manual := false } : TaskResult).manual = false ∧
    EfficiencyScorer.newDensity { duration := 1000, outputLength := 50, success := true, manual := false } <
      EfficiencyScorer.newDensity { duration := 1000, outputLength := 200, success := true, manual := false } ∧
    gradeValue (EfficiencyScorer.score histC6 { duration := 1000, outputLength := 50, success := true, manual := false }) ≤
      gradeValue (EfficiencyScorer.score histC6 { duration := 1000, outputLength := 200, success := true, manual := false }) :=
  ⟨rfl, rfl,
    by norm_num [EfficiencyScorer.newDensity, EfficiencyScorer.orElse100],
    C6_grade_monotonicity histC6
      { duration := 1000, outputLength := 200, success := true, manual := false }
      { duration := 1000, outputLength := 50, success := true, manual := false }
      rfl rfl
      (by norm_num [EfficiencyScorer.newDensity, EfficiencyScorer.orElse100])⟩

/-! ### Task history bookkeeping -/

/-- C4 evaluated at the failing input: one `completeTask` call starting from
an empty history (length 0 < 50) leaves the task history with TWO copies of
the record — the engine pushes it inline and then `scorer.addRecord` pushes
it again onto the same shared array — so the length increases by two, not by
exactly one as the claim states. -/
theorem C4_history_double_append :
    FarmEngine.completeTaskHistory [] c4record = [c4record, c4record] ∧
    (FarmEngine.completeTaskHistory [] c4record).length ≠ 1 := by
  decide

/-! ### Crop stage bound -/

namespace FarmEngine

theorem advStep_stage (soilPenalty : Int) (roll : Bool) (c : CropState) :
    (advStep soilPenalty roll c).stage = c.stage + 1 := by
  simp only [advStep]
  split_ifs <;> rfl

theorem advStep_maxStages (soilPenalty : Int) (roll : Bool) (c : CropState) :
    (advStep soilPenalty roll c).maxStages = c.maxStages := by
  simp only [advStep]
  split_ifs <;> rfl

theorem advLoop_stage_le (soilPenalty : Int) (roll : Bool) :
    ∀ (fuel : Nat) (c : CropState), c.stage ≤ c.maxStages →
      (advLoop soilPenalty roll fuel c).stage ≤
        (advLoop soilPenalty roll fuel c).maxStages := by
  intro fuel
  induction fuel with
  | zero => intro c h; exact h
  | succ fuel ih =>
    intro c h
    unfold advLoop
    split
    · next hcond =>
      apply ih
      rw [advStep_stage, advStep_maxStages]
      omega
    · exact h

theorem advancePlot_stage_le (steps : Int) (roll : Bool) (p : PlotState)
    (h : ∀ c, p.crop = some c → c.stage ≤ c.maxStages) :
    ∀ c, (advancePlot steps roll p).crop = some c → c.stage ≤ c.maxStages := by
  intro c hc
  unfold advancePlot at hc
  split at hc
  · next c1 htype hcrop =>
    simp only at hc
    cases hc
    apply advLoop_stage_le
    exact h c1 hcrop
  · exact h c hc

end FarmEngine

/-- C7: Crop stage bound.  For every list of plots whose planted crops start
with `stage ≤ maxStages` and every `steps` value (however large) and any
golden-roll outcomes, `advanceCrops(steps)` never produces a crop whose
`stage` exceeds its `maxStages`. -/
theorem C7_crop_stage_bound (steps : Int) (rolls : Nat → Bool)
    (plots : List PlotState)
    (hinit : ∀ p ∈ plots, ∀ c, p.crop = some c → c.stage ≤ c.maxStages) :
    ∀ p ∈ FarmEngine.advanceCrops steps rolls plots, ∀ c, p.crop = some c →
      c.stage ≤ c.maxStages := by
  unfold FarmEngine.advanceCrops
  have haux : ∀ (i : Nat) (l : List PlotState),
      (∀ p ∈ l, ∀ c, p.crop = some c → c.stage ≤ c.maxStages) →
      ∀ p ∈ FarmEngine.advanceCropsAux steps rolls i l, ∀ c, p.crop = some c →
        c.stage ≤ c.maxStages := by
    intro i l
    induction l generalizing i with
    | nil => intro _ p hp; simp [FarmEngine.advanceCropsAux] at hp
    | cons q rest ih =>
      intro hl p hp
      unfold FarmEngine.advanceCropsAux at hp
      rcases List.mem_cons.mp hp with hp | hp
      · subst hp
        exact FarmEngine.advancePlot_stage_le steps (rolls i) q (hl q (by simp))
      · exact ih (i + 1) (fun x hx => hl x (by simp [hx])) p hp
  exact haux 0 plots hinit

/-- Witness for C7: a million growth steps on a freshly planted turnip never
push any crop past its `maxStages`. -/
theorem C7_crop_stage_bound_witness :
    (∀ p ∈ [plotC7], ∀ c, p.crop = some c → c.stage ≤ c.maxStages) ∧
    (∀ p ∈ FarmEngine.advanceCrops 1000000 (fun _ => true) [plotC7],
      ∀ c, p.crop = some c → c.stage ≤ c.maxStages) := by
  have hinit : ∀ p ∈ [plotC7], ∀ c, p.crop = some c → c.stage ≤ c.maxStages := by
    intro p hp c hc
    simp only [List.mem_singleton] at hp
    subst hp
    simp only [plotC7, cropC7, Option.some.injEq] at hc
    subst hc
    decide
  exact ⟨hinit, C7_crop_stage_bound 1000000 (fun _ => true) [plotC7] hinit⟩

/-! ### Season wilting -/

theorem zip_map_snd (l : List PlotState) (f : PlotState → PlotState) :
    ∀ x ∈ l.zip (l.map f), x.2 = f x.1 := by
  induction l with
  | nil => simp
  | cons a t ih =>
    intro x hx
    simp only [List.map_cons, List.zip_cons_cons, List.mem_cons] at hx
    rcases hx with hx | hx
    · subst hx; rfl
    · exact ih x hx

theorem wiltPlot_valid (newSeason : Season) (p : PlotState) :
    ∀ c, (FarmEngine.wiltPlot newSeason p).crop = some c →
      isInSeason c.type newSeason = true := by
  intro c hc
  unfold FarmEngine.wiltPlot at hc
  split at hc
  · next c0 hc0 =>
    split at hc
    · next hin =>
      rw [hc0] at hc
      cases hc
      exact hin
    · simp at hc
  · next hnone =>
    rw [hnone] at hc
    cases hc

theorem wiltPlot_wilts (newSeason : Season) (p : PlotState) (c : CropState)
    (hc : p.crop = some c) (hout : isInSeason c.type newSeason = false) :
    (FarmEngine.wiltPlot newSeason p).crop = none ∧
    (FarmEngine.wiltPlot newSeason p).type = PlotType.tilled ∧
    (FarmEngine.wiltPlot newSeason p).soilHealth = min 100 (p.soilHealth + 5) := by
  unfold FarmEngine.wiltPlot
  rw [hc]
  dsimp only
  rw [if_neg (by simp [hout])]
  exact ⟨rfl, rfl, rfl⟩

/-- C8: Season wilting.  After any `updateSeason` call that performs a season
rotation, no plot retains a crop whose species is not valid for the new
season; every plot whose crop was invalid has the crop cleared, reverts to
type `tilled`, and its `soilHealth` increases by 5 capped at 100. -/
theorem C8_season_wilting (nowMs startMs seasonLengthDays : Int)
    (current : Season) (plots : List PlotState)
    (hrot : seasonLengthDays ≤ FarmEngine.daysPassedCalc nowMs startMs) :
    (∀ p ∈ (FarmEngine.updateSeason nowMs startMs seasonLengthDays current plots).plots,
        ∀ c, p.crop = some c →
          isInSeason c.type (FarmEngine.nextSeason current) = true) ∧
    (∀ pq ∈ plots.zip
        (FarmEngine.updateSeason nowMs startMs seasonLengthDays current plots).plots,
        ∀ c, pq.1.crop = some c →
          isInSeason c.type (FarmEngine.nextSeason current) = false →
          pq.2.crop = none ∧ pq.2.type = PlotType.tilled ∧
            pq.2.soilHealth = min 100 (pq.1.soilHealth + 5)) := by
  unfold FarmEngine.updateSeason
  rw [if_pos hrot]
  constructor
  · intro p hp c hc
    simp only at hp
    rcases List.mem_map.mp hp with ⟨q, hq, rfl⟩
    exact wiltPlot_valid (FarmEngine.nextSeason current) q c hc
  · intro pq hpq c hc hout
    simp only at hpq
    have hsnd := zip_map_snd plots (FarmEngine.wiltPlot (FarmEngine.nextSeason current)) pq hpq
    rw [hsnd]
    exact wiltPlot_wilts (FarmEngine.nextSeason current) pq.1 c hc hout

/-- Witness for C8: seven days after the start of spring the season rotates
to summer, and the planted potato (spring-only) is wilted: crop cleared, plot
tilled, soil restored from 98 to 100 (capped). -/
theorem C8_season_wilting_witness :
    (7 : Int) ≤ FarmEngine.daysPassedCalc (7 * 86400000) 0 ∧
    ((∀ p ∈ (FarmEngine.updateSeason (7 * 86400000) 0 7 Season.spring [plotC8]).plots,
        ∀ c, p.crop = some c →
          isInSeason c.type (FarmEngine.nextSeason Season.spring) = true) ∧
    (∀ pq ∈ [plotC8].zip
        (FarmEngine.updateSeason (7 * 86400000) 0 7 Season.spring [plotC8]).plots,
        ∀ c, pq.1.crop = some c →
          isInSeason c.type (FarmEngine.nextSeason Season.spring) = false →
          pq.2.crop = none ∧ pq.2.type = PlotType.tilled ∧
            pq.2.soilHealth = min 100 (pq.1.soilHealth + 5))) :=
  ⟨by decide, C8_season_wilting (7 * 86400000) 0 7 Season.spring [plotC8] (by decide)⟩

/-! ### Harvest scenario -/

theorem cropC9_quantity : FarmEngine.calculateHarvestQuantity cropC9 80 = 2 := by
  simp only [FarmEngine.calculateHarvestQuantity, cropC9]
  norm_num

theorem cropC9_sellValue : FarmEngine.calculateSellValue cropC9 80 = 9 := by
  simp only [FarmEngine.calculateSellValue, cropC9, CROP_DATA]
  norm_num

theorem processHarvests_plotC9 : FarmEngine.processHarvests 256 [plotC9] [] 0 =
    ([{ x := 0, y := 0, type := PlotType.tilled, crop := none, soilHealth := 70 }],
      [{ itemId := "turnip", quantity := 2, maxStack := 64 }], 9) := by
  unfold FarmEngine.processHarvests
  simp only [plotC9]
  rw [if_pos (by constructor <;> decide)]
  rw [cropC9_quantity, cropC9_sellValue]
  decide

/-- C9: Harvest scenario.  Harvesting one fully-grown (stage = maxStages)
S-quality, non-golden turnip on a plot with soil health 80 yields
`floor(1 + 1 + 0.5) = 2` items, deposits exactly 2 turnips into the (empty,
capacity 256) storehouse, and adds `round(5 * 1.5 * 1.2) = 9` seeds to the
economy. -/
theorem C9_harvest_scenario :
    FarmEngine.calculateHarvestQuantity cropC9 80 = 2 ∧
    FarmEngine.calculateSellValue cropC9 80 = 9 ∧
    InventoryManager.getCount
        (FarmEngine.processHarvests 256 [plotC9] [] 0).2.1 "turnip" = 2 ∧
    FarmEngine.applySeeds 0 (FarmEngine.processHarvests 256 [plotC9] [] 0).2.2 = 9 := by
  refine ⟨cropC9_quantity, cropC9_sellValue, ?_, ?_⟩ <;> rw [processHarvests_plotC9] <;> decide
